import Mathlib

/-!
Shallow embedding of the cosmos-sdk state-listening / change-data-capture
pipeline: wire encoders, permission filters, the listening KVStore
interceptor, the non-blocking state listener, the file streaming service
and the bank table decoder, together with theorems checking the
specification's claims against these definitions.

Bytes are modelled as `List Nat` (each element a byte value); Go strings
built from bytes are modelled by their byte lists.  A Go `panic` is
modelled by an `Option` result being `none`.
-/

/-- Bytes: a Go byte slice, one `Nat` per byte. -/
abbrev Bytes := List Nat

/-- Go bytes.HasPrefix(s, pre): s starts with pre. -/
def goHasPref (s pre : Bytes) : Bool := pre.isPrefixOf s

/-- Go bytes.Equal. -/
def goBytesEqual (a b : Bytes) : Bool := a == b

/-- Go bytes.TrimPrefix(s, pre): drop pre from the front of s when present. -/
def goTrimPref (s pre : Bytes) : Bytes :=
  if goHasPref s pre then s.drop pre.length else s

/-- Go binary.BigEndian.PutUint16 after the uint16(n) conversion: the two
big-endian bytes of n mod 2^16. -/
def putUint16BE (n : Nat) : Bytes := [n / 2^8 % 2^8, n % 2^8]

/-- Go binary.BigEndian.PutUint32 after the uint32(n) conversion: the four
big-endian bytes of n mod 2^32. -/
def putUint32BE (n : Nat) : Bytes :=
  [n / 2^24 % 2^8, n / 2^16 % 2^8, n / 2^8 % 2^8, n % 2^8]

namespace PrefixWriteListener

/-- PrefixWriteListener.OnWrite: bytes written to the underlying writer,
`none` when the length guard rejects and nothing is written.  The source
sets `valLen := len(key)` (sic) and writes a 2-byte big-endian key length
followed by a 4-byte big-endian `valLen`, then the key bytes, then the
value bytes. -/
def OnWrite (key value : Bytes) : Option Bytes :=
  let keyLen := key.length
  let valLen := key.length
  if keyLen > 65535 ∨ valLen > 4294967295 then none
  else some (putUint16BE keyLen ++ putUint32BE valLen ++ key ++ value)

end PrefixWriteListener

/-- Listener configuration shared by the two permission-filter variants:
whitelists and blacklists of exact keys and of key prefixes. -/
structure LConfig where
  whitelistedKeys : List Bytes
  blacklistedKeys : List Bytes
  whitelistedPrefixes : List Bytes
  blacklistedPrefixes : List Bytes
deriving Repr

/-- Variant 1 helper byteSliceContains: some element of the slice matches the
key under the provided matching function (called as doesMatch key el). -/
def byteSliceContains (slice : List Bytes) (key : Bytes)
    (doesMatch : Bytes → Bytes → Bool) : Bool :=
  slice.any (fun el => doesMatch key el)

/-- Variant 1 Listener.Allowed: the whitelist result is first computed from
the whitelisted keys and then reassigned from the whitelisted prefixes, and
the blacklist result computed from the blacklisted keys is reassigned from
the blacklisted prefixes, exactly as in the source. -/
def allowedV1 (l : LConfig) (key : Bytes) : Bool :=
  let allowed := true
  let allowed := if l.whitelistedKeys.length > 0
    then byteSliceContains l.whitelistedKeys key goBytesEqual else allowed
  let allowed := if l.whitelistedPrefixes.length > 0
    then byteSliceContains l.whitelistedPrefixes key goHasPref else allowed
  let disallowed := byteSliceContains l.blacklistedKeys key goBytesEqual
  let disallowed := byteSliceContains l.blacklistedPrefixes key goHasPref
  allowed && !disallowed

/-- Helper listsContains shared by variant 2 and the tracing Listener: the
key exactly matches one of the listed keys or extends one of the listed
prefixes. -/
def listsContains (keys prefixes : List Bytes) (key : Bytes) : Bool :=
  keys.any (fun k => key == k) || prefixes.any (fun p => goHasPref key p)

/-- Variant 2 Listener.Allowed: whitelist and blacklist are each an
independent (exact key OR prefix) membership test. -/
def allowedV2 (l : LConfig) (key : Bytes) : Bool :=
  let allowed := if l.whitelistedKeys.length > 0 || l.whitelistedPrefixes.length > 0
    then listsContains l.whitelistedKeys l.whitelistedPrefixes key else true
  allowed && !(listsContains l.blacklistedKeys l.blacklistedPrefixes key)

/-- Operation: the enumerated store-operation tag. -/
inductive Operation where
  | writeOp | readOp | deleteOp | iterKeyOp | iterValueOp
deriving DecidableEq, Repr

/-- Listener of store/types/tracing.go: an allowed-operations set (a Go map,
modelled as a list with membership) plus key/prefix whitelists and
blacklists. -/
structure Listener where
  allowedOperations : List Operation
  whitelistedKeys : List Bytes
  blacklistedKeys : List Bytes
  whitelistedPrefixes : List Bytes
  blacklistedPrefixes : List Bytes
deriving Repr

/-- Listener.Allowed of store/types/tracing.go: refuse when the operation is
not allowed, otherwise whitelist (empty whitelists allow everything) and
blacklist checks via listsContains. -/
def Listener.Allowed (l : Listener) (op : Operation) (key : Bytes) : Bool :=
  if !(l.allowedOperations.contains op) then false
  else
    let allowed := if l.whitelistedKeys.length > 0 || l.whitelistedPrefixes.length > 0
      then listsContains l.whitelistedKeys l.whitelistedPrefixes key else true
    allowed && !(listsContains l.blacklistedKeys l.blacklistedPrefixes key)

example : allowedV1 ⟨[], [[1]], [], []⟩ [1] = true := by decide
example : allowedV2 ⟨[], [[1]], [], []⟩ [1] = false := by decide

/-- StoreAction: one observable step taken by a listenkv.Store call, in
program order: key validation, emission of the operation to every
registered listener, or the delegated parent-store operation. -/
inductive StoreAction where
  | validateKey (key : Bytes)
  | emitToListeners (op : Operation) (key : Bytes) (value : Option Bytes)
  | parentSet (key : Bytes) (value : Bytes)
  | parentDelete (key : Bytes)
deriving DecidableEq, Repr

namespace ListenKVStore

/-- Store.Set of the listenkv interceptor: the ordered sequence of actions
its body performs before returning — AssertValidKey, then writeOperation
to the listeners, then parent.Set. -/
def SetTrace (key value : Bytes) : List StoreAction :=
  [.validateKey key, .emitToListeners .writeOp key (some value),
   .parentSet key value]

/-- Store.Delete of the listenkv interceptor: writeOperation to the
listeners (value nil), then parent.Delete; no key validation. -/
def DeleteTrace (key : Bytes) : List StoreAction :=
  [.emitToListeners .deleteOp key none, .parentDelete key]

end ListenKVStore

/-- WriteOutcome: result of one StateListener.Write attempt — the bytes
handed to the channel (none when nothing was delivered), the returned byte
count and the returned error. -/
structure WriteOutcome where
  delivered : Option Bytes
  n : Nat
  err : Option String
deriving DecidableEq, Repr

namespace StateListener

/-- StateListener.Write: the Go select with a default branch, as a function
of whether a consumer is ready to receive on the channel.  A ready consumer
receives b and the call returns (len b, nil); otherwise the default branch
returns (0, error) at once, delivering nothing. -/
def Write (consumerReady : Bool) (b : Bytes) : WriteOutcome :=
  if consumerReady then ⟨some b, b.length, none⟩
  else ⟨none, 0, some "unable to write bytes to channel; no listener available"⟩

end StateListener

/-- Sink: one destination io.WriteCloser of the FileStreamer, identified by
id, whose Close() returns the recorded error (none for success). -/
structure Sink where
  id : Nat
  closeErr : Option String
deriving DecidableEq, Repr

/-- FileStreamer state needed for Close: whether quitChan has already been
closed, and the registered destinations (path to sinks, in iteration
order). -/
structure FileStreamer where
  quitClosed : Bool
  destinations : List (String × List Sink)
deriving DecidableEq, Repr

/-- Inner close loop of FileStreamer.Close over one path's sinks: close each
in order, returning at the first error as the source does.  Result: the ids
of sinks whose Close() was invoked, and the wrapped first error if any. -/
def closeSinks (path : String) : List Sink → List Nat × Option String
  | [] => ([], none)
  | dst :: rest =>
    match dst.closeErr with
    | some e =>
      ([dst.id], some ("error closing destination: path (" ++ path ++ ") err (" ++ e ++ ")"))
    | none =>
      let r := closeSinks path rest
      (dst.id :: r.1, r.2)

/-- Outer close loop of FileStreamer.Close over the destination map: close
each path's sinks, returning at the first error. -/
def closePaths : List (String × List Sink) → List Nat × Option String
  | [] => ([], none)
  | (path, dsts) :: rest =>
    let r := closeSinks path dsts
    match r.2 with
    | some e => (r.1, some e)
    | none =>
      let r2 := closePaths rest
      (r.1 ++ r2.1, r2.2)

/-- FileStreamer.Close: close(quitChan) — a Go panic (none) when quitChan is
already closed — then close every destination in order, returning at the
first close error.  Result: the post state, the ids of sinks whose Close()
ran, and the returned error. -/
def FileStreamer.Close (fs : FileStreamer) :
    Option (FileStreamer × List Nat × Option String) :=
  if fs.quitClosed then none
  else
    let r := closePaths fs.destinations
    some ({ fs with quitClosed := true }, r.1, r.2)

/-- Coin: the external sdk.Coin value produced by the codec; its contents
are stored by the decoder without inspection. -/
structure Coin where
  denom : Bytes
  amount : Bytes
deriving DecidableEq, Repr

/-- Metadata: the external bank Metadata value produced by the codec, with
the six fields the decoder copies. -/
structure Metadata where
  name : Bytes
  base : Bytes
  denomUnits : List Bytes
  description : Bytes
  display : Bytes
  symbol : Bytes
deriving DecidableEq, Repr

/-- SendEnabled: one denom's send-enabled flag as unmarshalled from the
legacy amino JSON value. -/
structure SendEnabled where
  denom : Bytes
  enabled : Bool
deriving DecidableEq, Repr

/-- SupplyTable row (Go strings modelled as byte lists). -/
structure SupplyTable where
  amount : Bytes
  denom : Bytes
deriving DecidableEq, Repr

/-- BalanceTable row. -/
structure BalanceTable where
  address : Bytes
  denom : Bytes
  balance : Option Coin
deriving DecidableEq, Repr

/-- DenomMetadataTable row. -/
structure DenomMetadataTable where
  denom : Bytes
  metadata : Option Metadata
deriving DecidableEq, Repr

/-- DenomEnabledTable row. -/
structure DenomEnabledTable where
  denom : Bytes
  enabled : Bool
deriving DecidableEq, Repr

/-- UpdatedMsg: the proto.Message stored in a TableUpdate's Updated field;
nilMsg models a nil Go interface value. -/
inductive UpdatedMsg where
  | supply (t : SupplyTable)
  | balance (t : BalanceTable)
  | metadata (t : DenomMetadataTable)
  | enabled (t : DenomEnabledTable)
  | nilMsg
deriving DecidableEq, Repr

/-- TableUpdate as in types/table.go: table name, UpdateOrReplace flag
(true = patch mode), the Updated message and the ClearedFields list. -/
structure TableUpdate where
  table : String
  updateOrReplace : Bool
  updated : UpdatedMsg
  clearedFields : List String
deriving DecidableEq, Repr

/-- Codec: the external marshal layer the tableDecoder delegates to.
unmarshalInt returns the decimal string of the sdk.Int (none = unmarshal
error); the others return none exactly when the value bytes are malformed
for that type. -/
structure Codec where
  unmarshalInt : Bytes → Option Bytes
  unmarshalCoin : Bytes → Option Coin
  unmarshalMetadata : Bytes → Option Metadata
  unmarshalSendEnabledList : Bytes → Option (List SendEnabled)
  unmarshalBool : Bytes → Option Bool

/-- BankKeys: the bank module's store key constants (defined in
x/bank/types, outside the sources embedded here), taken as parameters:
the supply key prefix, balances prefix, denom metadata prefix and the two
send-enabled parameter keys. -/
structure BankKeys where
  supplyKey : Bytes
  balancesPref : Bytes
  denomMetadataPref : Bytes
  keySendEnabled : Bytes
  keyDefaultSendEnabled : Bytes
deriving DecidableEq, Repr

namespace TableDecoder

/-- tableDecoder.decodeSupplyUpdate: nil value yields the patch-mode
deletion update clearing Amount; a present value is unmarshalled as an
sdk.Int, a failure being returned as an explicit error. -/
def decodeSupplyUpdate (c : Codec) (bk : BankKeys) (key : Bytes)
    (value : Option Bytes) : Option (Except String (List TableUpdate)) :=
  let denom := goTrimPref key bk.supplyKey
  match value with
  | none =>
    some (.ok [{ table := "Supply", updateOrReplace := true,
                 updated := .supply { amount := [], denom := denom },
                 clearedFields := ["Amount"] }])
  | some v =>
    match c.unmarshalInt v with
    | none => some (.error "unable to unmarshal supply value")
    | some amount =>
      some (.ok [{ table := "Supply", updateOrReplace := true,
                   updated := .supply { amount := amount, denom := denom },
                   clearedFields := [] }])

/-- tableDecoder.decodeBalanceUpdate: the trimmed key's first byte is the
address length, the address is the next addrLen bytes and the denom starts
at offset addrLen+2; indexing or slicing past the remainder's length is a
Go panic (none).  A nil value yields the patch-mode deletion update
clearing Balance; a present value is unmarshalled with MustUnmarshal,
whose failure is a panic (none), never a returned error. -/
def decodeBalanceUpdate (c : Codec) (bk : BankKeys) (key : Bytes)
    (value : Option Bytes) : Option (Except String (List TableUpdate)) :=
  let addrDenomKey := goTrimPref key bk.balancesPref
  match addrDenomKey with
  | [] => none
  | addrLenByte :: _ =>
    let addrLen := addrLenByte
    if addrDenomKey.length < addrLen + 2 then none
    else
      let addr := (addrDenomKey.drop 1).take addrLen
      let denom := addrDenomKey.drop (addrLen + 2)
      match value with
      | none =>
        some (.ok [{ table := "Balance", updateOrReplace := true,
                     updated := .balance { address := addr, denom := denom,
                                           balance := none },
                     clearedFields := ["Balance"] }])
      | some v =>
        match c.unmarshalCoin v with
        | none => none
        | some balance =>
          some (.ok [{ table := "Balance", updateOrReplace := true,
                       updated := .balance { address := addr, denom := denom,
                                             balance := some balance },
                       clearedFields := [] }])

/-- tableDecoder.decodeMetadataUpdate: nil value yields the patch-mode
deletion update clearing Metadata; a present value is unmarshalled with
MustUnmarshal, whose failure is a panic (none), and the fields are copied
into a fresh Metadata. -/
def decodeMetadataUpdate (c : Codec) (bk : BankKeys) (key : Bytes)
    (value : Option Bytes) : Option (Except String (List TableUpdate)) :=
  let denom := goTrimPref key bk.denomMetadataPref
  match value with
  | none =>
    some (.ok [{ table := "Metadata", updateOrReplace := true,
                 updated := .metadata { denom := denom, metadata := none },
                 clearedFields := ["Metadata"] }])
  | some v =>
    match c.unmarshalMetadata v with
    | none => none
    | some m =>
      some (.ok [{ table := "Metadata", updateOrReplace := true,
                   updated := .metadata
                     { denom := denom,
                       metadata := some { name := m.name, base := m.base,
                                          denomUnits := m.denomUnits,
                                          description := m.description,
                                          display := m.display,
                                          symbol := m.symbol } },
                   clearedFields := [] }])

/-- tableDecoder.decodeSendEnabledUpdate: nil value yields the patch-mode
deletion update with a nil Updated message clearing Enabled; a present
value is legacy-amino JSON, a failure being returned as an explicit
error, and each entry becomes one update. -/
def decodeSendEnabledUpdate (c : Codec) (value : Option Bytes) :
    Option (Except String (List TableUpdate)) :=
  match value with
  | none =>
    some (.ok [{ table := "Enabled", updateOrReplace := true,
                 updated := .nilMsg, clearedFields := ["Enabled"] }])
  | some v =>
    match c.unmarshalSendEnabledList v with
    | none => some (.error "unable to unmarshal send enabled value")
    | some ses =>
      some (.ok (ses.map fun se =>
        { table := "Enabled", updateOrReplace := true,
          updated := .enabled { denom := se.denom, enabled := se.enabled },
          clearedFields := [] }))

/-- tableDecoder.decodeDefaultSendEnabledUpdate: nil value yields the
patch-mode deletion update with a nil Updated message; a present value is
a legacy-amino JSON bool, a failure being returned as an explicit error. -/
def decodeDefaultSendEnabledUpdate (c : Codec) (value : Option Bytes) :
    Option (Except String (List TableUpdate)) :=
  match value with
  | none =>
    some (.ok [{ table := "Enabled", updateOrReplace := true,
                 updated := .nilMsg, clearedFields := ["Enabled"] }])
  | some v =>
    match c.unmarshalBool v with
    | none => some (.error "unable to unmarshal default send enabled value")
    | some b =>
      some (.ok [{ table := "Enabled", updateOrReplace := true,
                   updated := .enabled { denom := [], enabled := b },
                   clearedFields := [] }])

/-- tableDecoder.Decode: dispatch on the key exactly as the source switch
does — supply prefix, balances prefix, denom metadata prefix, then the two
exact-match parameter keys; an unmatched key returns (nil, nil). -/
def Decode (c : Codec) (bk : BankKeys) (key : Bytes) (value : Option Bytes) :
    Option (Except String (List TableUpdate)) :=
  if goHasPref key bk.supplyKey then decodeSupplyUpdate c bk key value
  else if goHasPref key bk.balancesPref then decodeBalanceUpdate c bk key value
  else if goHasPref key bk.denomMetadataPref then decodeMetadataUpdate c bk key value
  else if key == bk.keySendEnabled then decodeSendEnabledUpdate c value
  else if key == bk.keyDefaultSendEnabled then decodeDefaultSendEnabledUpdate c value
  else some (.ok [])

end TableDecoder

/-- Sample bank key constants used for concrete evaluations: distinct,
non-overlapping one-byte prefixes. -/
def bkSample : BankKeys :=
  { supplyKey := [0], balancesPref := [2], denomMetadataPref := [1],
    keySendEnabled := [4], keyDefaultSendEnabled := [5] }

/-- Codec instance for counterexamples: every unmarshal fails, modelling
value bytes that are malformed for every type. -/
def failCodec : Codec :=
  { unmarshalInt := fun _ => none, unmarshalCoin := fun _ => none,
    unmarshalMetadata := fun _ => none,
    unmarshalSendEnabledList := fun _ => none,
    unmarshalBool := fun _ => none }

/-- C1: the fixed binary framing encoder writes a 4-byte big-endian field
that is claimed to be the value length; in the source it is the key length
(valLen is assigned len(key)), so for the key [97] the value-length field
is always 1 whatever the value is, and the frame for key [97], value
[98, 99] is not the claimed big-endian encoding of (1, 2) followed by the
key and value bytes.  This evaluates the code at the failing input of the
code_bug verdict. -/
theorem prefixOnWrite_value_length_is_key_length :
    (∀ value : Bytes,
      PrefixWriteListener.OnWrite [97] value =
        some ([0, 1, 0, 0, 0, 1, 97] ++ value)) ∧
    PrefixWriteListener.OnWrite [97] [98, 99] ≠
      some (putUint16BE 1 ++ putUint32BE 2 ++ [97] ++ [98, 99]) :=
  ⟨fun _ => rfl, by decide⟩

/-- C2: the two permission-filter variants disagree: with the single
blacklisted key [1] and all other lists empty, variant 1 allows the key
[1] (its blacklist key match is overwritten by the blacklist prefix
check) while variant 2 denies it.  This evaluates both variants at the
failing input of the code_bug verdict. -/
theorem allowed_variants_disagree_on_blacklisted_key :
    allowedV1 { whitelistedKeys := [], blacklistedKeys := [[1]],
                whitelistedPrefixes := [], blacklistedPrefixes := [] } [1] = true ∧
    allowedV2 { whitelistedKeys := [], blacklistedKeys := [[1]],
                whitelistedPrefixes := [], blacklistedPrefixes := [] } [1] = false := by
  decide

/-- C3 counterexample: for key [1], value [2] the interceptor's Set trace
emits to the listeners before the parent-store Set, so it is not the
claimed validate-then-parent-op-then-emit sequence. -/
theorem setTrace_emits_before_parent_op :
    ListenKVStore.SetTrace [1] [2] =
      [.validateKey [1], .emitToListeners .writeOp [1] (some [2]),
       .parentSet [1] [2]] ∧
    ListenKVStore.SetTrace [1] [2] ≠
      [.validateKey [1], .parentSet [1] [2],
       .emitToListeners .writeOp [1] (some [2])] := by
  decide

/-- C3 amended: for every Set the interceptor first validates the key,
then emits the write event to all registered listeners, then performs the
parent-store Set; for every Delete it emits the delete event (no key
validation) and then performs the parent-store Delete; in each case the
whole sequence is the body of the call, so it completes before the call
returns. -/
theorem setTrace_validate_emit_then_parent (key value : Bytes) :
    ListenKVStore.SetTrace key value =
      [.validateKey key, .emitToListeners .writeOp key (some value),
       .parentSet key value] ∧
    ListenKVStore.DeleteTrace key =
      [.emitToListeners .deleteOp key none, .parentDelete key] :=
  ⟨rfl, rfl⟩

/-- C4: a first Close of a fresh FileStreamer returns normally, and a
second Close panics (none), because close(quitChan) is called on an
already-closed channel with no closed-state tracking.  This evaluates the
code at the failing input of the code_bug verdict. -/
theorem fileStreamer_double_close_panics :
    FileStreamer.Close { quitClosed := false, destinations := [] } =
      some ({ quitClosed := true, destinations := [] }, [], none) ∧
    FileStreamer.Close { quitClosed := true, destinations := [] } = none :=
  ⟨rfl, rfl⟩

/-- C9: StateListener.Write is non-blocking: with a ready consumer it
delivers the bytes b and returns (len b, nil); with no ready consumer the
select's default branch returns (0, non-nil error) at once, delivering
and queueing nothing. -/
theorem stateListener_write_nonblocking (b : Bytes) :
    StateListener.Write true b = ⟨some b, b.length, none⟩ ∧
    (StateListener.Write false b).delivered = none ∧
    (StateListener.Write false b).n = 0 ∧
    (StateListener.Write false b).err ≠ none :=
  ⟨rfl, rfl, rfl, by simp [StateListener.Write]⟩

/-- C10: the balance table decoder is not total on keys with the balances
prefix: whenever the supply key is not a prefix of the balances prefix,
decoding the bare balances prefix (empty remainder) panics (none) for
every codec and every value including nil, from the out-of-range index
into the empty remainder. -/
theorem decode_bare_balances_key_panics (c : Codec) (bk : BankKeys)
    (value : Option Bytes)
    (h : goHasPref bk.balancesPref bk.supplyKey = false) :
    TableDecoder.Decode c bk bk.balancesPref value = none := by
  unfold TableDecoder.Decode
  rw [h]
  have hself : goHasPref bk.balancesPref bk.balancesPref = true := by
    simp [goHasPref, List.isPrefixOf_iff_prefix]
  rw [if_neg (by simp), if_pos (by simp [hself])]
  unfold TableDecoder.decodeBalanceUpdate
  simp [goTrimPref, hself]

/-- C10 witness: at the sample bank keys, the all-failing codec and a
present value, decoding the bare balances prefix key panics. -/
theorem decode_bare_balances_key_panics_witness :
    TableDecoder.Decode failCodec bkSample bkSample.balancesPref (some [7]) = none :=
  decode_bare_balances_key_panics failCodec bkSample (some [7]) (by decide)

/-- C8: with both whitelists empty, Listener.Allowed is exactly the
allowed-operations membership test conjoined with the negated blacklist
membership, for every key including the empty key; and whenever the empty
prefix is whitelisted, the whitelist check (listsContains over the
whitelists) passes for every key. -/
theorem listener_empty_whitelists_allow_all :
    (∀ (l : Listener) (op : Operation) (key : Bytes),
      l.whitelistedKeys = [] → l.whitelistedPrefixes = [] →
      l.Allowed op key =
        (l.allowedOperations.contains op &&
          !(listsContains l.blacklistedKeys l.blacklistedPrefixes key))) ∧
    (∀ (l : Listener) (key : Bytes), [] ∈ l.whitelistedPrefixes →
      listsContains l.whitelistedKeys l.whitelistedPrefixes key = true) := by
  constructor
  · intro l op key h1 h2
    unfold Listener.Allowed
    rw [h1, h2]
    by_cases hop : l.allowedOperations.contains op <;> simp [hop]
  · intro l key h
    unfold listsContains
    have hp : l.whitelistedPrefixes.any (fun p => goHasPref key p) = true :=
      List.any_eq_true.mpr ⟨[], h, by simp [goHasPref]⟩
    simp [hp]

/-- C8 witness: a listener allowing writes with a blacklisted key and empty
whitelists follows the closed form, and a whitelist holding the empty
prefix contains every key. -/
theorem listener_empty_whitelists_allow_all_witness :
    Listener.Allowed
        { allowedOperations := [.writeOp], whitelistedKeys := [],
          blacklistedKeys := [[7]], whitelistedPrefixes := [],
          blacklistedPrefixes := [] } .writeOp [7] =
      ([Operation.writeOp].contains .writeOp && !(listsContains [[7]] [] [7])) ∧
    listsContains [[3]] [[], [9]] [4] = true :=
  ⟨listener_empty_whitelists_allow_all.1
      { allowedOperations := [.writeOp], whitelistedKeys := [],
        blacklistedKeys := [[7]], whitelistedPrefixes := [],
        blacklistedPrefixes := [] } .writeOp [7] rfl rfl,
   listener_empty_whitelists_allow_all.2
      { allowedOperations := [], whitelistedKeys := [[3]],
        blacklistedKeys := [], whitelistedPrefixes := [[], [9]],
        blacklistedPrefixes := [] } [4] (by decide)⟩

/-- Ids of every sink registered in a destinations map, in iteration
order. -/
def allSinkIds (ds : List (String × List Sink)) : List Nat :=
  (ds.map (fun p => p.2.map Sink.id)).flatten

/-- Auxiliary: closing a list of sinks that all close cleanly closes every
one of them in order and reports no error. -/
theorem closeSinks_all_ok (path : String) (ss : List Sink)
    (h : ∀ s ∈ ss, s.closeErr = none) :
    closeSinks path ss = (ss.map Sink.id, none) := by
  induction ss with
  | nil => rfl
  | cons s rest ih =>
    have hs := h s (by simp)
    have hr := ih (fun x hx => h x (by simp [hx]))
    simp [closeSinks, hs, hr]

/-- Auxiliary: closing a destinations map whose sinks all close cleanly
closes every sink and reports no error. -/
theorem closePaths_all_ok (ds : List (String × List Sink))
    (h : ∀ p ∈ ds, ∀ s ∈ p.2, s.closeErr = none) :
    closePaths ds = (allSinkIds ds, none) := by
  induction ds with
  | nil => rfl
  | cons p rest ih =>
    obtain ⟨path, dsts⟩ := p
    have h1 := closeSinks_all_ok path dsts (h (path, dsts) (by simp))
    have h2 := ih (fun q hq s hs => h q (by simp [hq]) s hs)
    simp [closePaths, h1, h2, allSinkIds]

/-- Auxiliary: when the inner close loop reports no error, every sink in
the list closed cleanly. -/
theorem closeSinks_none_all_ok (path : String) (ss : List Sink)
    (h : (closeSinks path ss).2 = none) :
    ∀ s ∈ ss, s.closeErr = none := by
  induction ss with
  | nil => intro s hs; cases hs
  | cons d rest ih =>
    intro s hs
    cases hd : d.closeErr with
    | some e => simp [closeSinks, hd] at h
    | none =>
      rcases List.mem_cons.mp hs with h1 | h1
      · rw [h1]; exact hd
      · exact ih (by simpa [closeSinks, hd] using h) s h1

/-- Auxiliary: when the outer close loop reports no error, every sink under
every path closed cleanly. -/
theorem closePaths_none_all_ok (ds : List (String × List Sink))
    (h : (closePaths ds).2 = none) :
    ∀ p ∈ ds, ∀ s ∈ p.2, s.closeErr = none := by
  induction ds with
  | nil => intro p hp; cases hp
  | cons q rest ih =>
    obtain ⟨path, dsts⟩ := q
    intro p hp s hs
    cases hr : (closeSinks path dsts).2 with
    | some e => simp [closePaths, hr] at h
    | none =>
      rcases List.mem_cons.mp hp with h1 | h1
      · have := closeSinks_none_all_ok path dsts hr
        exact this s (by rw [h1] at hs; exact hs)
      · exact ih (by simpa [closePaths, hr] using h) p h1 s hs

/-- Auxiliary: the first failing sink determines the close loop's result:
the sinks before it close cleanly, the failing sink's Close runs and its
error is returned wrapped, and no later sink's Close runs. -/
theorem closeSinks_first_err (path : String) (pre : List Sink) (s : Sink)
    (post : List Sink) (e : String)
    (hpre : ∀ x ∈ pre, x.closeErr = none) (hs : s.closeErr = some e) :
    closeSinks path (pre ++ s :: post) =
      (pre.map Sink.id ++ [s.id],
       some ("error closing destination: path (" ++ path ++ ") err (" ++ e ++ ")")) := by
  induction pre with
  | nil => simp [closeSinks, hs]
  | cons x rest ih =>
    have hx := hpre x (by simp)
    have hr := ih (fun y hy => hpre y (by simp [hy]))
    simp [closeSinks, hx, hr]

/-- C5 counterexample: with one path holding a failing sink 0 followed by a
healthy sink 1, Close returns normally but sink 1's Close is never
invoked (its id is absent from the closed list) even though an error is
returned, so Close does not close every registered sink when a close
fails. -/
theorem fileStreamer_close_skips_sinks_after_error :
    (FileStreamer.Close
        { quitClosed := false,
          destinations := [("p", [⟨0, some "boom"⟩, ⟨1, none⟩])] }).map
        (fun r => (r.2.1.contains 1, r.2.2.isSome)) = some (false, true) := by
  rfl

/-- C5 amended: Close on a not-yet-closed FileStreamer returns normally
with the shutdown signalled; when every sink close succeeds it closes
every registered sink in order and returns no error; when some sink fails
to close, a non-nil error is returned (never swallowed); and the first
failing sink determines the outcome — sinks before it and the failing one
are closed, its wrapped error is returned, and sinks after it are not
closed. -/
theorem fileStreamer_close_amended :
    (∀ fs : FileStreamer, fs.quitClosed = false →
      ∃ r, FileStreamer.Close fs = some r ∧ r.1.quitClosed = true ∧
        r.1.destinations = fs.destinations) ∧
    (∀ fs : FileStreamer, fs.quitClosed = false →
      (∀ p ∈ fs.destinations, ∀ s ∈ p.2, s.closeErr = none) →
      FileStreamer.Close fs =
        some ({ fs with quitClosed := true }, allSinkIds fs.destinations, none)) ∧
    (∀ (fs : FileStreamer) (p : String × List Sink) (s : Sink),
      fs.quitClosed = false → p ∈ fs.destinations → s ∈ p.2 →
      s.closeErr.isSome →
      ∃ r, FileStreamer.Close fs = some r ∧ r.2.2.isSome) ∧
    (∀ (path : String) (pre : List Sink) (s : Sink) (post : List Sink) (e : String),
      (∀ x ∈ pre, x.closeErr = none) → s.closeErr = some e →
      FileStreamer.Close
          { quitClosed := false, destinations := [(path, pre ++ s :: post)] } =
        some ({ quitClosed := true, destinations := [(path, pre ++ s :: post)] },
              pre.map Sink.id ++ [s.id],
              some ("error closing destination: path (" ++ path ++ ") err (" ++ e ++ ")"))) := by
  refine ⟨?_, ?_, ?_, ?_⟩
  · intro fs h
    refine ⟨({ fs with quitClosed := true }, (closePaths fs.destinations).1,
             (closePaths fs.destinations).2), ?_, rfl, rfl⟩
    simp [FileStreamer.Close, h]
  · intro fs h hok
    simp [FileStreamer.Close, h, closePaths_all_ok fs.destinations hok]
  · intro fs p s h hp hs he
    refine ⟨({ fs with quitClosed := true }, (closePaths fs.destinations).1,
             (closePaths fs.destinations).2), by simp [FileStreamer.Close, h], ?_⟩
    cases herr : (closePaths fs.destinations).2 with
    | some e => simp
    | none =>
      have := closePaths_none_all_ok fs.destinations herr p hp s hs
      rw [this] at he
      cases he
  · intro path pre s post e hpre hs
    have h1 := closeSinks_first_err path pre s post e hpre hs
    simp [FileStreamer.Close, closePaths, h1]

/-- C5 amended witness: with a healthy sink before a failing one and a sink
after it, Close signals shutdown, the all-ok configuration closes both its
sinks, a failing configuration surfaces a non-nil error, and the failing
sink's wrapped error is returned with only the sinks up to the failure
closed. -/
theorem fileStreamer_close_amended_witness :
    (∃ r, FileStreamer.Close { quitClosed := false, destinations := [] } = some r ∧
      r.1.quitClosed = true ∧ r.1.destinations = []) ∧
    FileStreamer.Close
        { quitClosed := false, destinations := [("q", [⟨3, none⟩, ⟨4, none⟩])] } =
      some ({ quitClosed := true, destinations := [("q", [⟨3, none⟩, ⟨4, none⟩])] },
            allSinkIds [("q", [⟨3, none⟩, ⟨4, none⟩])], none) ∧
    (∃ r, FileStreamer.Close
        { quitClosed := false, destinations := [("p", [⟨0, some "boom"⟩])] } =
      some r ∧ r.2.2.isSome) ∧
    FileStreamer.Close
        { quitClosed := false,
          destinations := [("p", [⟨2, none⟩, ⟨0, some "boom"⟩, ⟨1, none⟩])] } =
      some ({ quitClosed := true,
              destinations := [("p", [⟨2, none⟩, ⟨0, some "boom"⟩, ⟨1, none⟩])] },
            [⟨2, none⟩].map Sink.id ++ [0],
            some ("error closing destination: path (" ++ "p" ++ ") err (" ++ "boom" ++ ")")) :=
  ⟨fileStreamer_close_amended.1 { quitClosed := false, destinations := [] } rfl,
   fileStreamer_close_amended.2.1
     { quitClosed := false, destinations := [("q", [⟨3, none⟩, ⟨4, none⟩])] } rfl
     (by decide),
   fileStreamer_close_amended.2.2.1
     { quitClosed := false, destinations := [("p", [⟨0, some "boom"⟩])] }
     ("p", [⟨0, some "boom"⟩]) ⟨0, some "boom"⟩ rfl (by simp) (by simp) (by simp),
   fileStreamer_close_amended.2.2.2 "p" [⟨2, none⟩] ⟨0, some "boom"⟩ [⟨1, none⟩]
     "boom" (by decide) rfl⟩

/-- C6 counterexample: the key [2, 0, 5, 5] is under the sample balances
prefix with a well-formed remainder, the value [9] is malformed for the
all-failing codec, and Decode panics (none) via MustUnmarshal instead of
returning an explicit error. -/
theorem decode_malformed_balance_value_panics :
    failCodec.unmarshalCoin [9] = none ∧
    TableDecoder.Decode failCodec bkSample [2, 0, 5, 5] (some [9]) = none :=
  ⟨rfl, rfl⟩

/-- C6 amended: on a malformed value the supply decoder and the two
send-enabled decoders return an explicit non-nil error, but the balance
and metadata decoders panic (none) through MustUnmarshal instead of
returning the error to the caller. -/
theorem decode_malformed_value_behavior :
    (∀ (c : Codec) (bk : BankKeys) (key v : Bytes),
      goHasPref key bk.supplyKey = true → c.unmarshalInt v = none →
      TableDecoder.Decode c bk key (some v) =
        some (.error "unable to unmarshal supply value")) ∧
    (∀ (c : Codec) (bk : BankKeys) (key v : Bytes),
      goHasPref key bk.supplyKey = false → goHasPref key bk.balancesPref = true →
      c.unmarshalCoin v = none →
      TableDecoder.Decode c bk key (some v) = none) ∧
    (∀ (c : Codec) (bk : BankKeys) (key v : Bytes),
      goHasPref key bk.supplyKey = false → goHasPref key bk.balancesPref = false →
      goHasPref key bk.denomMetadataPref = true → c.unmarshalMetadata v = none →
      TableDecoder.Decode c bk key (some v) = none) ∧
    (∀ (c : Codec) (bk : BankKeys) (key v : Bytes),
      goHasPref key bk.supplyKey = false → goHasPref key bk.balancesPref = false →
      goHasPref key bk.denomMetadataPref = false → key = bk.keySendEnabled →
      c.unmarshalSendEnabledList v = none →
      TableDecoder.Decode c bk key (some v) =
        some (.error "unable to unmarshal send enabled value")) ∧
    (∀ (c : Codec) (bk : BankKeys) (key v : Bytes),
      goHasPref key bk.supplyKey = false → goHasPref key bk.balancesPref = false →
      goHasPref key bk.denomMetadataPref = false → key ≠ bk.keySendEnabled →
      key = bk.keyDefaultSendEnabled → c.unmarshalBool v = none →
      TableDecoder.Decode c bk key (some v) =
        some (.error "unable to unmarshal default send enabled value")) := by
  refine ⟨?_, ?_, ?_, ?_, ?_⟩
  · intro c bk key v h1 hu
    simp [TableDecoder.Decode, h1, TableDecoder.decodeSupplyUpdate, hu]
  · intro c bk key v h1 h2 hu
    simp only [TableDecoder.Decode, h1, h2, Bool.false_eq_true, if_false, if_true]
    unfold TableDecoder.decodeBalanceUpdate
    cases hrem : goTrimPref key bk.balancesPref with
    | nil => simp
    | cons b t =>
      simp only []
      split
      · rfl
      · simp [hu]
  · intro c bk key v h1 h2 h3 hu
    simp [TableDecoder.Decode, h1, h2, h3, TableDecoder.decodeMetadataUpdate, hu]
  · intro c bk key v h1 h2 h3 h4 hu
    subst h4
    simp [TableDecoder.Decode, h1, h2, h3,
      TableDecoder.decodeSendEnabledUpdate, hu]
  · intro c bk key v h1 h2 h3 h4 h5 hu
    subst h5
    simp [TableDecoder.Decode, h1, h2, h3, h4,
      TableDecoder.decodeDefaultSendEnabledUpdate, hu]

/-- C6 amended witness: at the sample bank keys and the all-failing codec,
a supply key returns the explicit supply error, a well-formed balance key
panics, a metadata key panics, and the two send-enabled keys return their
explicit errors. -/
theorem decode_malformed_value_behavior_witness :
    TableDecoder.Decode failCodec bkSample [0, 3] (some [9]) =
      some (.error "unable to unmarshal supply value") ∧
    TableDecoder.Decode failCodec bkSample [2, 1, 8, 8, 8] (some [9]) = none ∧
    TableDecoder.Decode failCodec bkSample [1, 3] (some [9]) = none ∧
    TableDecoder.Decode failCodec bkSample [4] (some [9]) =
      some (.error "unable to unmarshal send enabled value") ∧
    TableDecoder.Decode failCodec bkSample [5] (some [9]) =
      some (.error "unable to unmarshal default send enabled value") :=
  ⟨decode_malformed_value_behavior.1 failCodec bkSample [0, 3] [9] (by decide) rfl,
   decode_malformed_value_behavior.2.1 failCodec bkSample [2, 1, 8, 8, 8] [9]
     (by decide) (by decide) rfl,
   decode_malformed_value_behavior.2.2.1 failCodec bkSample [1, 3] [9]
     (by decide) (by decide) (by decide) rfl,
   decode_malformed_value_behavior.2.2.2.1 failCodec bkSample [4] [9]
     (by decide) (by decide) (by decide) (by decide) rfl,
   decode_malformed_value_behavior.2.2.2.2 failCodec bkSample [5] [9]
     (by decide) (by decide) (by decide) (by decide) (by decide) rfl⟩

/-- Value-bearing (non-primary-key) fields of each bank table, from the
TableInfo declarations and the row types. -/
def valueBearingFields (table : String) : List String :=
  match table with
  | "Supply" => ["Amount"]
  | "Balance" => ["Balance"]
  | "Metadata" => ["Metadata"]
  | "Enabled" => ["Enabled"]
  | _ => []

/-- Whether an Updated message carries only key-identifying fields: its
value fields are at their zero values (empty amount, nil balance, nil
metadata), a nil message carries nothing, and an enabled row always
carries its value flag. -/
def carriesOnlyKeyFields : UpdatedMsg → Bool
  | .supply t => t.amount == []
  | .balance t => t.balance.isNone
  | .metadata t => t.metadata.isNone
  | .enabled _ => false
  | .nilMsg => true

/-- Well-formedness of a balances key under the decoder's slicing: the
trimmed remainder is non-empty and holds at least addrLen + 2 bytes,
addrLen being its first byte. -/
def balanceKeyWellFormed (bk : BankKeys) (key : Bytes) : Bool :=
  match goTrimPref key bk.balancesPref with
  | [] => false
  | b :: t => decide (b + 2 ≤ t.length + 1)

/-- Result shape asserted by the deletion-semantics claim: a returned (not
panicked) ok list, non-empty, every update patch-mode, clearing exactly
the table's value-bearing fields (a non-empty list), with an Updated
record carrying only key-identifying fields. -/
def deletionPatchOk (r : Option (Except String (List TableUpdate))) : Prop :=
  ∃ us, r = some (.ok us) ∧ us ≠ [] ∧ ∀ u ∈ us,
    u.updateOrReplace = true ∧ u.clearedFields = valueBearingFields u.table ∧
    u.clearedFields ≠ [] ∧ carriesOnlyKeyFields u.updated = true

/-- Auxiliary: nil-value decode of a supply key produces exactly the
patch-mode update clearing Amount. -/
theorem decode_supply_nil (c : Codec) (bk : BankKeys) (key : Bytes)
    (h1 : goHasPref key bk.supplyKey = true) :
    TableDecoder.Decode c bk key none =
      some (.ok [{ table := "Supply", updateOrReplace := true,
                   updated := .supply { amount := [],
                                        denom := goTrimPref key bk.supplyKey },
                   clearedFields := ["Amount"] }]) := by
  simp [TableDecoder.Decode, h1, TableDecoder.decodeSupplyUpdate]

/-- Auxiliary: nil-value decode of a well-formed balances key produces
exactly the patch-mode update clearing Balance. -/
theorem decode_balance_nil (c : Codec) (bk : BankKeys) (key : Bytes)
    (b : Nat) (t : Bytes)
    (h1 : goHasPref key bk.supplyKey = false)
    (h2 : goHasPref key bk.balancesPref = true)
    (hrem : goTrimPref key bk.balancesPref = b :: t)
    (hle : b + 2 ≤ t.length + 1) :
    TableDecoder.Decode c bk key none =
      some (.ok [{ table := "Balance", updateOrReplace := true,
                   updated := .balance { address := t.take b,
                                         denom := t.drop (b + 1),
                                         balance := none },
                   clearedFields := ["Balance"] }]) := by
  have hnotlt : ¬((b :: t).length < b + 2) := by
    simp only [List.length_cons]
    omega
  simp [TableDecoder.Decode, h1, h2, TableDecoder.decodeBalanceUpdate, hrem,
    hnotlt]
  omega

/-- Auxiliary: nil-value decode of a denom metadata key produces exactly
the patch-mode update clearing Metadata. -/
theorem decode_metadata_nil (c : Codec) (bk : BankKeys) (key : Bytes)
    (h1 : goHasPref key bk.supplyKey = false)
    (h2 : goHasPref key bk.balancesPref = false)
    (h3 : goHasPref key bk.denomMetadataPref = true) :
    TableDecoder.Decode c bk key none =
      some (.ok [{ table := "Metadata", updateOrReplace := true,
                   updated := .metadata { denom := goTrimPref key bk.denomMetadataPref,
                                          metadata := none },
                   clearedFields := ["Metadata"] }]) := by
  simp [TableDecoder.Decode, h1, h2, h3, TableDecoder.decodeMetadataUpdate]

/-- C7 counterexample: the bare balances prefix key [2] matches a
registered table prefix, yet deletion-decoding it panics (none) instead
of yielding any Patch-mode update. -/
theorem decode_deletion_bare_balances_key_panics :
    goHasPref [2] bkSample.balancesPref = true ∧
    TableDecoder.Decode failCodec bkSample [2] none = none :=
  ⟨rfl, rfl⟩

/-- C7 amended: for every key matching a registered table prefix or
parameter key — with, for the balances table, the remainder well-formed
(at least addrLen + 2 bytes, addrLen its first byte) — decoding with an
absent value yields a returned Patch-mode update list that is non-empty,
never Replace-mode, whose ClearedFields is non-empty and names exactly the
table's value-bearing fields, and whose Updated record carries only
key-identifying fields. -/
theorem decode_deletion_patch_semantics :
    (∀ (c : Codec) (bk : BankKeys) (key : Bytes),
      goHasPref key bk.supplyKey = true →
      deletionPatchOk (TableDecoder.Decode c bk key none)) ∧
    (∀ (c : Codec) (bk : BankKeys) (key : Bytes),
      goHasPref key bk.supplyKey = false → goHasPref key bk.balancesPref = true →
      balanceKeyWellFormed bk key = true →
      deletionPatchOk (TableDecoder.Decode c bk key none)) ∧
    (∀ (c : Codec) (bk : BankKeys) (key : Bytes),
      goHasPref key bk.supplyKey = false → goHasPref key bk.balancesPref = false →
      goHasPref key bk.denomMetadataPref = true →
      deletionPatchOk (TableDecoder.Decode c bk key none)) ∧
    (∀ (c : Codec) (bk : BankKeys) (key : Bytes),
      goHasPref key bk.supplyKey = false → goHasPref key bk.balancesPref = false →
      goHasPref key bk.denomMetadataPref = false → key = bk.keySendEnabled →
      deletionPatchOk (TableDecoder.Decode c bk key none)) ∧
    (∀ (c : Codec) (bk : BankKeys) (key : Bytes),
      goHasPref key bk.supplyKey = false → goHasPref key bk.balancesPref = false →
      goHasPref key bk.denomMetadataPref = false → key ≠ bk.keySendEnabled →
      key = bk.keyDefaultSendEnabled →
      deletionPatchOk (TableDecoder.Decode c bk key none)) := by
  refine ⟨?_, ?_, ?_, ?_, ?_⟩
  · intro c bk key h1
    exact ⟨_, decode_supply_nil c bk key h1, by simp, by
      intro u hu
      simp only [List.mem_singleton] at hu
      subst hu
      refine ⟨rfl, by simp [valueBearingFields], by simp, by
        simp [carriesOnlyKeyFields]⟩⟩
  · intro c bk key h1 h2 hwf
    unfold balanceKeyWellFormed at hwf
    cases hrem : goTrimPref key bk.balancesPref with
    | nil => rw [hrem] at hwf; cases hwf
    | cons b t =>
      rw [hrem] at hwf
      have hle : b + 2 ≤ t.length + 1 := of_decide_eq_true hwf
      exact ⟨_, decode_balance_nil c bk key b t h1 h2 hrem hle, by simp, by
        intro u hu
        simp only [List.mem_singleton] at hu
        subst hu
        refine ⟨rfl, by simp [valueBearingFields], by simp, by
          simp [carriesOnlyKeyFields]⟩⟩
  · intro c bk key h1 h2 h3
    exact ⟨_, decode_metadata_nil c bk key h1 h2 h3, by simp, by
      intro u hu
      simp only [List.mem_singleton] at hu
      subst hu
      refine ⟨rfl, by simp [valueBearingFields], by simp, by
        simp [carriesOnlyKeyFields]⟩⟩
  · intro c bk key h1 h2 h3 h4
    subst h4
    refine ⟨[{ table := "Enabled", updateOrReplace := true,
               updated := .nilMsg, clearedFields := ["Enabled"] }], by
        simp [TableDecoder.Decode, h1, h2, h3,
          TableDecoder.decodeSendEnabledUpdate], by simp, by
      intro u hu
      simp only [List.mem_singleton] at hu
      subst hu
      refine ⟨rfl, by simp [valueBearingFields], by simp, by
        simp [carriesOnlyKeyFields]⟩⟩
  · intro c bk key h1 h2 h3 h4 h5
    subst h5
    refine ⟨[{ table := "Enabled", updateOrReplace := true,
               updated := .nilMsg, clearedFields := ["Enabled"] }], by
        simp [TableDecoder.Decode, h1, h2, h3, h4,
          TableDecoder.decodeDefaultSendEnabledUpdate], by simp, by
      intro u hu
      simp only [List.mem_singleton] at hu
      subst hu
      refine ⟨rfl, by simp [valueBearingFields], by simp, by
        simp [carriesOnlyKeyFields]⟩⟩

/-- C7 amended witness: at the sample bank keys and the all-failing codec,
deletion-decoding a supply key, a well-formed balances key, a metadata key
and the two send-enabled keys each satisfies the Patch-mode deletion
shape. -/
theorem decode_deletion_patch_semantics_witness :
    deletionPatchOk (TableDecoder.Decode failCodec bkSample [0, 7] none) ∧
    deletionPatchOk (TableDecoder.Decode failCodec bkSample [2, 0, 9] none) ∧
    deletionPatchOk (TableDecoder.Decode failCodec bkSample [1, 7] none) ∧
    deletionPatchOk (TableDecoder.Decode failCodec bkSample [4] none) ∧
    deletionPatchOk (TableDecoder.Decode failCodec bkSample [5] none) :=
  ⟨decode_deletion_patch_semantics.1 failCodec bkSample [0, 7] (by decide),
   decode_deletion_patch_semantics.2.1 failCodec bkSample [2, 0, 9]
     (by decide) (by decide) (by decide),
   decode_deletion_patch_semantics.2.2.1 failCodec bkSample [1, 7]
     (by decide) (by decide) (by decide),
   decode_deletion_patch_semantics.2.2.2.1 failCodec bkSample [4]
     (by decide) (by decide) (by decide) (by decide),
   decode_deletion_patch_semantics.2.2.2.2 failCodec bkSample [5]
     (by decide) (by decide) (by decide) (by decide) (by decide)⟩
